import Mathlib

/-!
# Verification of the news-digest pipeline (src/run.py)

Shallow embedding of the selection-repair pass, the renderer's escaping
helpers, the RSS fetch retry loop, the article filter, the delivery/record
ordering in `main`, and the source-health queries of `src/run.py`.

Conventions used throughout:
* Python `dict`s are insertion-ordered association lists (`List (String × JValue)`);
  Python dicts never hold duplicate keys, and the helpers below treat the first
  occurrence of a key as the binding.
* Python `str` is Lean `String`; the renderer works on `List Char` (a Python
  string is a sequence of characters).
* Timestamps are `Int` seconds; `datetime` comparison is integer comparison.
* Where Python would raise `TypeError`/`AttributeError` on input of an
  unexpected shape (e.g. iterating a number), the embedding totalizes the
  function as the identity on that input; each such spot is noted in a comment.
-/

namespace NewsDigest

/-- JSON-like values, the shape of `selections.json` and of everything the
repair pass manipulates.  Numbers are modelled as integers (no float appears in
any code path the claims touch). -/
inductive JValue where
  | null : JValue
  | bool : Bool → JValue
  | num : Int → JValue
  | str : String → JValue
  | arr : List JValue → JValue
  | obj : List (String × JValue) → JValue

/-- First binding of `key` in a Python-dict-as-assoc-list (`d[key]` / `key in d`). -/
def jlookup : List (String × JValue) → String → Option JValue
  | [], _ => none
  | (k, v) :: rest, key => if k = key then some v else jlookup rest key

/-- `d.pop(key)`'s effect on the dict: remove the binding of `key`. -/
def jerase (o : List (String × JValue)) (key : String) : List (String × JValue) :=
  o.filter (fun p => p.1 ≠ key)

/-- `d[key] = v`: replace the binding in place if the key is present (Python
dicts keep the key's insertion position), otherwise append a new binding. -/
def jset : List (String × JValue) → String → JValue → List (String × JValue)
  | [], key, v => [(key, v)]
  | (k, w) :: rest, key, v =>
    if k = key then (key, v) :: rest else (k, w) :: jset rest key v

/-- Python truthiness of a JSON value (`if x:`). -/
def truthy : JValue → Bool
  | .null => false
  | .bool b => b
  | .num n => n ≠ 0
  | .str s => s ≠ ""
  | .arr l => !l.isEmpty
  | .obj o => !o.isEmpty

/-- Truthiness of `d.get(key)` (absent key → `None` → falsy). -/
def truthyOpt : Option JValue → Bool
  | none => false
  | some v => truthy v

/-- Field access on a value known to be a dict (`v[key]` via `.get`). -/
def jget (v : JValue) (key : String) : Option JValue :=
  match v with
  | .obj o => jlookup o key
  | _ => none

/-- `v.get(key, default)`. -/
def jgetD (v : JValue) (key : String) (dflt : JValue) : JValue :=
  (jget v key).getD dflt

/-! ## The repair pass: `fix_selections_schema` (run.py lines 1049-1111)

The Python function mutates `selections` in place and returns it; the embedding
is the corresponding pure function.  It is decomposed into one Lean function
per repair heuristic, mirroring the successive `if` blocks of the source. -/

/-- Python length of the `links` value (`len(links)`): defined for lists and
strings; other shapes (where Python's subsequent indexing would raise) are
treated as length 0, i.e. no link is zipped. -/
def jlen : JValue → Nat
  | .arr l => l.length
  | .str s => s.length
  | _ => 0

/-- Python indexing `links[i]` for lists and strings (a string yields the
one-character string, as in Python); only used under `i < jlen links`. -/
def jidx : JValue → Nat → JValue
  | .arr l, i => l.getD i .null
  | .str s, i => .str (String.mk (s.data.drop i |>.take 1))
  | _, _ => .null

/-- One step of the `links` zip (run.py lines 1064-1066): source `i` receives
`links[i]` only if its `url` is absent/falsy and `i` is within `links`.
A non-dict source entry would raise in Python (`src.get`); kept unchanged. -/
def patchSource (links : JValue) (i : Nat) (src : JValue) : JValue :=
  match src with
  | .obj s =>
    if !truthyOpt (jlookup s "url") && decide (i < jlen links) then
      .obj (jset s "url" (jidx links i))
    else src
  | _ => src

/-- Positional zip of `links` into the sources list (run.py lines 1063-1066). -/
def patchSources (links : JValue) : Nat → List JValue → List JValue
  | _, [] => []
  | i, src :: rest => patchSource links i src :: patchSources links (i + 1) rest

/-- Heuristic 1 (run.py lines 1056-1059): `title` is promoted to `headline`
when `headline` is absent (`article["headline"] = article.pop("title")`). -/
def fixTitle (a : List (String × JValue)) : List (String × JValue) :=
  match jlookup a "title" with
  | some t => if (jlookup a "headline").isSome then a
              else jset (jerase a "title") "headline" t
  | none => a

/-- Heuristic 2 (run.py lines 1061-1067): pop a parallel `links` array and zip
it into the sources' empty `url` fields.  The pop happens whenever `links` is
present and `article.get("sources")` is truthy; Python then iterates the
sources, which only succeeds when `sources` is a list (a truthy non-list would
raise mid-mutation — totalized: only the pop takes effect). -/
def fixLinks (a : List (String × JValue)) : List (String × JValue) :=
  match jlookup a "links" with
  | some links =>
    if truthyOpt (jlookup a "sources") then
      match jlookup (jerase a "links") "sources" with
      | some (.arr srcs) =>
          jset (jerase a "links") "sources" (.arr (patchSources links 0 srcs))
      | _ => jerase a "links"
    else a
  | none => a

/-- Heuristic 3 (run.py lines 1069-1071): default-fill `why_it_matters`. -/
def fixWhy (a : List (String × JValue)) : List (String × JValue) :=
  if (jlookup a "why_it_matters").isSome then a
  else jset a "why_it_matters" (.str "")

/-- The three tier-article repairs in source order (run.py lines 1054-1071).
A non-dict tier entry would raise in Python; kept unchanged. -/
def fixArticle : JValue → JValue
  | .obj a => .obj (fixWhy (fixLinks (fixTitle a)))
  | v => v

/-- The placeholder source object used for bare-string signals and for the
`link` key rewrite (run.py lines 1083 and 1090). -/
def placeholderSource (url : JValue) : JValue :=
  .obj [("name", .str "Source"), ("url", url), ("bias", .str "center")]

/-- Signal-dict repair, first rewrite (run.py lines 1086-1088):
`one_liner` is promoted to `headline` when `headline` is absent. -/
def sigStep1 (d : List (String × JValue)) : List (String × JValue) :=
  match jlookup d "one_liner" with
  | some v => if (jlookup d "headline").isSome then d
              else jset (jerase d "one_liner") "headline" v
  | none => d

/-- Signal-dict repair, second rewrite (run.py lines 1089-1091): a bare `link`
is popped into a structured `source` object when `source` is absent. -/
def sigStep2 (d : List (String × JValue)) : List (String × JValue) :=
  match jlookup d "link" with
  | some v => if (jlookup d "source").isSome then d
              else jset (jerase d "link") "source" (placeholderSource v)
  | none => d

/-- Signal-item repair (run.py lines 1080-1092): a bare string is wrapped into
the canonical object shape; a dict gets the `one_liner`→`headline` and
`link`→`source` key rewrites; anything else is dropped (the Python loop only
appends strings and dicts to `fixed_cluster`). -/
def fixSignalItem : JValue → Option JValue
  | .str s => some (.obj [("headline", .str s), ("source", placeholderSource (.str ""))])
  | .obj d => some (.obj (sigStep2 (sigStep1 d)))
  | _ => none

/-- A cluster value of the signals dict (run.py lines 1076-1093): a list is
rebuilt through `fixSignalItem`; a non-list cluster is skipped (`continue`). -/
def clusterVal : JValue → JValue
  | .arr items => .arr (items.filterMap fixSignalItem)
  | v => v

/-- One `(cluster_name, cluster)` entry of the signals dict. -/
def fixCluster (p : String × JValue) : String × JValue :=
  (p.1, clusterVal p.2)

/-- Signals repair (run.py lines 1074-1093).  A non-dict `signals` value would
raise on `.items()`; kept unchanged. -/
def fixSignals : JValue → JValue
  | .obj m => .obj (m.map fixCluster)
  | v => v

/-- The per-region mapping that replaces a bare-string `regional_summary`
(run.py lines 1099-1105). -/
def regionalFromString (t : String) : JValue :=
  .obj [("americas", .str t), ("europe", .str ""), ("asia_pacific", .str ""),
        ("middle_east_africa", .str ""), ("tech", .str "")]

/-- Repair one tier list (the `for article in selections.get(tier, [])` loop):
present list-valued tiers have their elements repaired in place; an absent
tier (default `[]`) leaves the dict unchanged.  A present non-list tier value
would raise in Python when a repair fires; kept unchanged. -/
def fixTier (fields : List (String × JValue)) (tier : String) : List (String × JValue) :=
  match jlookup fields tier with
  | some (.arr items) => jset fields tier (.arr (items.map fixArticle))
  | _ => fields

/-- The signals block of `fix_selections_schema`: rewrite the `signals` value
in place when the key is present (`selections.get("signals", {})` mutates a
throwaway dict when it is absent). -/
def sigField (f : List (String × JValue)) : List (String × JValue) :=
  match jlookup f "signals" with
  | some sig => jset f "signals" (fixSignals sig)
  | none => f

/-- The regional-summary block (run.py lines 1095-1106): a string-valued
`regional_summary` is replaced by the per-region mapping; any other shape
(including an absent key, where `.get` returns `{}`) is left alone. -/
def regField (f : List (String × JValue)) : List (String × JValue) :=
  match jlookup f "regional_summary" with
  | some (.str t) => jset f "regional_summary" (regionalFromString t)
  | _ => f

/-- `fix_selections_schema` (run.py lines 1049-1111) on the top-level dict's
bindings: both tiers, then signals, then the regional-summary coercion. -/
def fixFields (fields : List (String × JValue)) : List (String × JValue) :=
  regField (sigField (fixTier (fixTier fields "must_know") "should_know"))

/-- `fix_selections_schema` (run.py lines 1049-1111).  A non-dict argument
would raise on the first `.get`; kept unchanged. -/
def fix_selections_schema : JValue → JValue
  | .obj fields => .obj (fixFields fields)
  | v => v

/-! ## URL safety (run.py lines 501-503) -/

/-- Python `str.startswith(pat)` over character lists (first argument is the
pattern, second the string). -/
def hasPrefixL : List Char → List Char → Bool
  | [], _ => true
  | _ :: _, [] => false
  | p :: ps, c :: cs => p = c && hasPrefixL ps cs

/-- `is_safe_url` (run.py lines 501-503):
`url.startswith(("http://", "https://"))`. -/
def is_safe_url (url : String) : Bool :=
  hasPrefixL "http://".data url.data || hasPrefixL "https://".data url.data

/-- `is_safe_url` seen from the renderer, where text is a character list. -/
def is_safe_url_list (url : List Char) : Bool :=
  hasPrefixL "http://".data url || hasPrefixL "https://".data url

/-! ## RSS fetching: `fetch_source` (run.py lines 356-412) and the article
filter of `fetch_feeds` (run.py lines 441-453) -/

/-- An article as built by `fetch_source` (run.py lines 385-390). -/
structure Article where
  title : String
  url : String
  published : Option String
  summary : String
deriving DecidableEq

/-- A feed entry as seen after `feedparser.parse`: `title`/`link`/`summary`
via `entry.get` with defaults, and `published` the normalized timestamp string
of run.py lines 376-383 (that normalization — `published_parsed` struct-time
to ISO with raw-string fallback — wraps the feedparser/datetime libraries and
is carried here as its resulting optional string). -/
structure Entry where
  title : String
  link : String
  published : Option String
  summary : String

/-- Entry-to-article processing (run.py lines 374-392): strip the title,
truncate the summary to 500 characters, keep only entries with a non-empty
title and link. -/
def processEntries (entries : List Entry) : List Article :=
  entries.filterMap (fun e =>
    let t := e.title.trim
    if t ≠ "" ∧ e.link ≠ "" then
      some ⟨t, e.link, e.published, e.summary.take 500⟩
    else none)

/-- What one iteration of the retry loop observes from the network and the
feed parser (run.py lines 362-407): a parsed feed with its bozo flag (carrying
`str(feed.bozo_exception)` when set), a transient error
(`URLError`/`TimeoutError`/`OSError`, carrying the string displayed via
`getattr(e, "reason", e)`), or any other exception (non-transient). -/
inductive AttemptResult where
  | parsed (bozoMsg : Option String) (entries : List Entry)
  | transientErr (reason : String)
  | fatalErr (msg : String)

/-- Observable outcome of `fetch_source`: how many attempts ran, the sleeps
performed between attempts (in seconds), and the returned
`(articles, error_or_none)` pair. -/
structure FetchOutcome where
  attempts : Nat
  delays : List Nat
  articles : List Article
  error : Option String
deriving DecidableEq

/-- The retry loop of `fetch_source` (run.py lines 361-412), recursing on the
number of remaining loop iterations (`remaining + attempt = MAX_RETRIES`).
A transient error sleeps `RETRY_DELAY * 2 ** attempt` only when another
attempt remains (`attempt < MAX_RETRIES - 1`); a bozo feed with no entries
returns at once; any other exception returns at once; exhausting the loop
returns the "Failed after N retries" message built from the last error. -/
def fetch_source_go (outcome : Nat → AttemptResult) (maxRetries retryDelay : Nat) :
    Nat → Nat → Option String → List Nat → FetchOutcome
  | 0, attempt, lastErr, delays =>
      ⟨attempt, delays, [],
        some ("Failed after " ++ toString maxRetries ++ " retries: " ++ lastErr.getD "Unknown")⟩
  | remaining + 1, attempt, _, delays =>
      match outcome attempt with
      | .parsed (some msg) [] =>
          ⟨attempt + 1, delays, [], some ("Feed parse error: " ++ msg)⟩
      | .parsed (some _) (e :: es) =>
          ⟨attempt + 1, delays, processEntries (e :: es), none⟩
      | .parsed none entries =>
          ⟨attempt + 1, delays, processEntries entries, none⟩
      | .transientErr reason =>
          if remaining = 0 then
            fetch_source_go outcome maxRetries retryDelay remaining (attempt + 1)
              (some reason) delays
          else
            fetch_source_go outcome maxRetries retryDelay remaining (attempt + 1)
              (some reason) (delays ++ [retryDelay * 2 ^ attempt])
      | .fatalErr msg => ⟨attempt + 1, delays, [], some msg⟩

/-- `fetch_source` (run.py lines 356-412) parameterized by the per-attempt
observation and the `MAX_RETRIES` / `RETRY_DELAY` configuration. -/
def fetch_source (outcome : Nat → AttemptResult) (maxRetries retryDelay : Nat) :
    FetchOutcome :=
  fetch_source_go outcome maxRetries retryDelay maxRetries 0 none []

/-- The `\dT\d` search of `parse_date` (run.py line 347): some digit followed
by `T` followed by a digit, anywhere in the string. -/
def hasDigitTDigit : List Char → Bool
  | a :: b :: c :: rest =>
      (a.isDigit && b = 'T' && c.isDigit) || hasDigitTDigit (b :: c :: rest)
  | _ => false

/-- `parse_date` (run.py lines 341-353).  `isoParse` and `rfcParse` stand for
the library calls (`datetime.fromisoformat` on the Z-normalized string,
`parsedate_to_datetime`), each returning `none` exactly when the library
raises — the function's `except` branch. -/
def parse_date (isoParse rfcParse : String → Option Int) (s : Option String) :
    Option Int :=
  match s with
  | none => none
  | some str =>
      if str = "" then none
      else if hasDigitTDigit str.data then isoParse str else rfcParse str

/-- The per-source date filter of `fetch_feeds` (run.py lines 445-446): with
no previous run every article is kept; otherwise an article is kept iff its
date fails to parse or parses strictly after the watermark. -/
def filter_new (isoParse rfcParse : String → Option Int) (last_run : Option Int)
    (articles : List Article) : List Article :=
  match last_run with
  | none => articles
  | some t => articles.filter (fun a =>
      match parse_date isoParse rfcParse a.published with
      | none => true
      | some pub => decide (t < pub))

/-! ## Delivery and persistence ordering in `main` (run.py lines 1634-1656) -/

/-- The externally visible steps of the tail of `main`. -/
inductive PipelineEvent where
  | saveDigest
  | sendBroadcast
  | readShownHeadlines
  | recordShownHeadlines
  | recordRun
  | cleanupShownHeadlines
deriving DecidableEq

/-- The tail of the full pipeline in `main` (run.py lines 1634-1656) as the
sequence of steps it executes and whether it completes: save the digest unless
recording is skipped; send the broadcast unless email is skipped — and when
`send_broadcast` raises, the exception propagates, aborting `main` with no
further step; then (unless recording is skipped) read and record the shown
headlines and record the run; finally clean up. -/
def main_tail (skipEmail skipRecord sendSucceeds : Bool) :
    List PipelineEvent × Bool :=
  if skipEmail then
    ((if skipRecord then [] else [PipelineEvent.saveDigest]) ++
     (if skipRecord then []
      else [PipelineEvent.readShownHeadlines, PipelineEvent.recordShownHeadlines,
            PipelineEvent.recordRun]) ++
     [PipelineEvent.cleanupShownHeadlines], true)
  else if sendSucceeds then
    ((if skipRecord then [] else [PipelineEvent.saveDigest]) ++
     [PipelineEvent.sendBroadcast] ++
     (if skipRecord then []
      else [PipelineEvent.readShownHeadlines, PipelineEvent.recordShownHeadlines,
            PipelineEvent.recordRun]) ++
     [PipelineEvent.cleanupShownHeadlines], true)
  else
    ((if skipRecord then [] else [PipelineEvent.saveDigest]) ++
     [PipelineEvent.sendBroadcast], false)

/-! ## Source health (run.py lines 280-333) -/

/-- A row of the `source_health` table. -/
structure HealthRecord where
  source_id : String
  success : Bool
  recorded_at : Int
deriving DecidableEq

/-- `get_consecutive_failures` (run.py lines 291-314).  The model's table is
held most-recent-first, matching the query's `ORDER BY recorded_at DESC`
(ties are returned by SQLite in an unspecified order; the model uses the
stored order).  The query takes the source's rows, applies `LIMIT`, and the
loop counts leading failures until the first success. -/
def get_consecutive_failures (db : List HealthRecord) (sid : String) (limit : Nat) : Nat :=
  (((db.filter (fun r => r.source_id = sid)).take limit).takeWhile
    (fun r => !r.success)).length

/-- `datetime('now', '-7 days')` as a span of seconds. -/
def sevenDays : Int := 604800

/-- One step of Python's stable `sorted(..., key=lambda x: -x[1])`: insert
after every element with a strictly larger-or-equal count. -/
def insertByCountDesc (x : String × Nat) : List (String × Nat) → List (String × Nat)
  | [] => [x]
  | y :: ys => if y.2 < x.2 then x :: y :: ys else y :: insertByCountDesc x ys

/-- Stable sort by descending failure count. -/
def sortByCountDesc : List (String × Nat) → List (String × Nat)
  | [] => []
  | x :: xs => insertByCountDesc x (sortByCountDesc xs)

/-- `get_failing_sources` (run.py lines 317-333): the distinct sources with a
health record in the last 7 days (the SQL `DISTINCT` returns ids in an
unspecified order; `dedup` is one such order), kept when their capped
consecutive-failure count (limit 10) reaches the threshold, sorted by count
descending. -/
def get_failing_sources (db : List HealthRecord) (now : Int) (min_consecutive : Nat) :
    List (String × Nat) :=
  sortByCountDesc
    ((((db.filter (fun r => now - sevenDays < r.recorded_at)).map
        (fun r => r.source_id)).dedup).filterMap
      (fun sid =>
        if min_consecutive ≤ get_consecutive_failures db sid 10 then
          some (sid, get_consecutive_failures db sid 10)
        else none))

/-! ## Digest rendering (run.py lines 597-730)

The renderer works on `List Char` (Python strings are character sequences).
The HTML template is read from `digest-template.html`, an input file of
`render_digest`; the embedding takes it as a parameter. -/

/-- `html.escape` on one character: `&`, `<`, `>`, `"` and the apostrophe map
to their entities (the successive `str.replace` calls of CPython's
`html.escape` with `quote=True`, equivalent to this character map because no
inserted entity contains a later-replaced character). -/
def escapeChar (c : Char) : List Char :=
  if c = '&' then "&amp;".data
  else if c = '<' then "&lt;".data
  else if c = '>' then "&gt;".data
  else if c = '"' then "&quot;".data
  else if c = Char.ofNat 39 then "&#x27;".data
  else [c]

/-- `html.escape(s, quote=True)`. -/
def html_escape : List Char → List Char
  | [] => []
  | c :: cs => escapeChar c ++ html_escape cs

/-- `v.get(key, "")` for a string field.  A present non-string value would
make Python's `html.escape` raise; totalized to `""`. -/
def getStrJ (v : JValue) (key : String) : String :=
  match jget v key with
  | some (.str s) => s
  | _ => ""

/-- `v.get(key, [])` for a list field.  A present truthy non-list value would
raise when iterated; totalized to `[]`. -/
def getArrJ (v : JValue) (key : String) : List JValue :=
  match jget v key with
  | some (.arr l) => l
  | _ => []

/-- Python `sep.join(parts)`. -/
def joinSep (sep : List Char) : List (List Char) → List Char
  | [] => []
  | [x] => x
  | x :: y :: rest => x ++ sep ++ joinSep sep (y :: rest)

/-- One entry of `sources_html` (run.py lines 632-638): emitted only when the
escaped name is non-empty, the raw url is non-empty and the url is safe. -/
def render_source_frag (src : JValue) : Option (List Char) :=
  if html_escape (getStrJ src "name").data ≠ [] ∧ getStrJ src "url" ≠ "" ∧
      is_safe_url (getStrJ src "url") = true then
    some ("<a href=\"".data ++ html_escape (getStrJ src "url").data ++ "\">".data ++
          html_escape (getStrJ src "name").data ++ "</a> (".data ++
          html_escape (getStrJ src "bias").data ++ ")".data)
  else none

/-- One `reporting_varies` bullet (run.py lines 656-660). -/
def render_rv (rv : JValue) : List Char :=
  "          <li><em>".data ++ html_escape (getStrJ rv "source").data ++
  "</em> (".data ++ html_escape (getStrJ rv "bias").data ++ "): ".data ++
  html_escape (getStrJ rv "angle").data ++ "</li>".data

/-- The first four lines of `parts` in `render_article` (run.py lines 642-647). -/
def article_parts_head (article : JValue) : List (List Char) :=
  ["    <article>".data,
   "      <h3>".data ++ html_escape (getStrJ article "headline").data ++ "</h3>".data,
   "      <p>".data ++ html_escape (getStrJ article "summary").data ++ "</p>".data,
   "      <p class=\"why\"><strong>Why it matters:</strong> ".data ++
     html_escape (getStrJ article "why_it_matters").data ++ "</p>".data]

/-- The optional `reporting_varies` block (run.py lines 650-662). -/
def article_parts_rv (article : JValue) (include_reporting_varies : Bool) :
    List (List Char) :=
  if include_reporting_varies ∧ (getArrJ article "reporting_varies").isEmpty = false then
    ["      <div class=\"reporting-varies\">".data,
     "        <strong>How reporting varies:</strong>".data,
     "        <ul>".data] ++
    (getArrJ article "reporting_varies").map render_rv ++
    ["        </ul>".data, "      </div>".data]
  else []

/-- The sources line and closing tag (run.py lines 664-665). -/
def article_parts_tail (article : JValue) : List (List Char) :=
  ["      <p class=\"sources\">".data ++
     joinSep " · ".data ((getArrJ article "sources").filterMap render_source_frag) ++
     "</p>".data,
   "    </article>".data]

/-- `render_article` (run.py lines 625-667). -/
def render_article (article : JValue) (include_reporting_varies : Bool) : List Char :=
  joinSep "\n".data
    (article_parts_head article ++ article_parts_rv article include_reporting_varies ++
     article_parts_tail article)

/-- `render_signal` (run.py lines 670-678): linked form when the signal
source's url is present and safe, plain form otherwise. -/
def render_signal (item : JValue) : List Char :=
  if getStrJ (jgetD item "source" (.obj [])) "url" ≠ "" ∧
      is_safe_url (getStrJ (jgetD item "source" (.obj [])) "url") = true then
    "      <p class=\"signal\">".data ++ html_escape (getStrJ item "headline").data ++
    " — ".data ++ "<a href=\"".data ++
    html_escape (getStrJ (jgetD item "source" (.obj [])) "url").data ++ "\">".data ++
    html_escape (getStrJ (jgetD item "source" (.obj [])) "name").data ++ "</a></p>".data
  else
    "      <p class=\"signal\">".data ++ html_escape (getStrJ item "headline").data ++
    " — ".data ++ html_escape (getStrJ (jgetD item "source" (.obj [])) "name").data ++
    "</p>".data

/-- Split at the first occurrence of `c`: the characters before it and the
remainder after it. -/
def splitAtChar (c : Char) : List Char → Option (List Char × List Char)
  | [] => none
  | x :: xs =>
    if x = c then some ([], xs)
    else (splitAtChar c xs).map (fun pq => (x :: pq.1, pq.2))

/-- Matching of the regex `\[([^\]]+)\]\(([^)]+)\)` (run.py line 622) at a
position just after a literal `[`: group 1 runs to the first `]` and must be
non-empty, a literal `(` must follow, group 2 runs to the first `)` and must
be non-empty.  Returns the two groups and the rest of the text. -/
def mdMatch (s : List Char) : Option (List Char × List Char × List Char) :=
  match splitAtChar ']' s with
  | some (g1, r1) =>
    if g1 = [] then none
    else
      match r1 with
      | '(' :: r2 =>
        match splitAtChar ')' r2 with
        | some (g2, r3) => if g2 = [] then none else some (g1, g2, r3)
        | none => none
      | _ => none
  | none => none

/-- The replacement of one markdown link (run.py lines 615-620): an anchor tag
with escaped url and text when the url is safe, the escaped text alone
otherwise. -/
def mdReplace (g1 g2 : List Char) : List Char :=
  if is_safe_url_list g2 then
    "<a href=\"".data ++ html_escape g2 ++ "\">".data ++ html_escape g1 ++ "</a>".data
  else html_escape g1

/-- The `re.sub` scan of `markdown_to_html`, fuelled for structural recursion
(the fuel is the text length, which bounds the number of steps because every
step consumes at least one character). -/
def markdown_go : Nat → List Char → List Char
  | _, [] => []
  | 0, s => s
  | fuel + 1, c :: rest =>
    if c = '[' then
      match mdMatch rest with
      | some (g1, g2, r3) => mdReplace g1 g2 ++ markdown_go fuel r3
      | none => c :: markdown_go fuel rest
    else c :: markdown_go fuel rest

/-- `markdown_to_html` (run.py lines 612-622). -/
def markdown_to_html (text : List Char) : List Char :=
  markdown_go text.length text

/-- Python `str.replace(pat, rep)` (all non-overlapping occurrences, left to
right), fuelled for structural recursion. -/
def replaceAll_go (pat rep : List Char) : Nat → List Char → List Char
  | _, [] => []
  | 0, s => s
  | fuel + 1, c :: rest =>
    if pat ≠ [] ∧ pat.isPrefixOf (c :: rest) = true then
      rep ++ replaceAll_go pat rep fuel (List.drop (pat.length - 1) rest)
    else c :: replaceAll_go pat rep fuel rest

/-- `s.replace(pat, rep)`. -/
def replaceAll (s pat rep : List Char) : List Char :=
  replaceAll_go pat rep s.length s

/-- `REGION_ORDER` (run.py line 609). -/
def REGION_ORDER : List String :=
  ["americas", "europe", "asia_pacific", "middle_east_africa", "tech"]

/-- `REGION_CONFIG` (run.py lines 600-606): display name and emoji.  Python
would raise `KeyError` on other keys; `render_digest` only consults the keys
of `REGION_ORDER`. -/
def REGION_CONFIG : String → String × String
  | "europe" => ("Europe", "🌍")
  | "americas" => ("Americas", "🌎")
  | "asia_pacific" => ("Asia-Pacific", "🌏")
  | "middle_east_africa" => ("Middle East & Africa", "🌍")
  | "tech" => ("Tech", "🤖")
  | _ => ("", "")

/-- One region's line of the regional summary (run.py lines 691-696): only
emitted when the region's text is truthy; the text goes through
`markdown_to_html`, not through `html.escape`. -/
def render_region_summary (selections : JValue) (rk : String) : Option (List Char) :=
  if getStrJ (jgetD selections "regional_summary" (.obj [])) rk ≠ "" then
    some ("    <p><span class=\"region\">".data ++ (REGION_CONFIG rk).2.data ++
          " ".data ++ (REGION_CONFIG rk).1.data ++ ":</span> ".data ++
          markdown_to_html (getStrJ (jgetD selections "regional_summary" (.obj [])) rk).data ++
          "</p>".data)
  else none

/-- One region's signal cluster block (run.py lines 712-720). -/
def render_cluster (signals : JValue) (rk : String) : List (List Char) :=
  if (getArrJ signals rk).isEmpty = false then
    ["    <div class=\"cluster\">".data,
     "      <h3>".data ++ (REGION_CONFIG rk).2.data ++ " ".data ++
       (REGION_CONFIG rk).1.data ++ "</h3>".data] ++
    (getArrJ signals rk).map render_signal ++
    ["    </div>".data]
  else []

/-- `render_digest` (run.py lines 681-730), parameterized by the template
text: render the four blocks and substitute them into the template's
placeholders in source order. -/
def render_digest (template : List Char) (selections : JValue) : List Char :=
  replaceAll
    (replaceAll
      (replaceAll
        (replaceAll template "\x7b\x7bREGIONAL_SUMMARY\x7d\x7d".data
          (joinSep "\n".data (REGION_ORDER.filterMap (render_region_summary selections))))
        "\x7b\x7bMUST_KNOW\x7d\x7d".data
        (joinSep "\n".data
          ((getArrJ selections "must_know").map (fun a => render_article a true))))
      "\x7b\x7bSHOULD_KNOW\x7d\x7d".data
      (joinSep "\n".data
        ((getArrJ selections "should_know").map (fun a => render_article a false))))
    "\x7b\x7bSIGNALS\x7d\x7d".data
    (joinSep "\n".data
      ((REGION_ORDER.map (render_cluster (jgetD selections "signals" (.obj [])))).flatten))

/-- Whether a source entry passes `render_article`'s per-source check
(escaped name non-empty, url non-empty and safe) — the structural datum the
tag budget depends on. -/
def source_linked (src : JValue) : Bool :=
  decide (html_escape (getStrJ src "name").data ≠ [] ∧ getStrJ src "url" ≠ "" ∧
    is_safe_url (getStrJ src "url") = true)

/-- The number of `<` characters `render_article` emits, computed from
structural data only (number of linked sources, size of the
`reporting_varies` block): 12 template tags, 2 per linked source, and
`6 + 4·n` for a reporting-varies block of `n` items. -/
def articleTagBudget (article : JValue) (include_reporting_varies : Bool) : Nat :=
  12 + 2 * (getArrJ article "sources").countP source_linked +
    (if include_reporting_varies ∧ (getArrJ article "reporting_varies").isEmpty = false then
      6 + 4 * (getArrJ article "reporting_varies").length
     else 0)

/-- The number of `<` characters `render_signal` emits: 4 in the linked form,
2 in the plain form. -/
def signalTagBudget (item : JValue) : Nat :=
  if getStrJ (jgetD item "source" (.obj [])) "url" ≠ "" ∧
      is_safe_url (getStrJ (jgetD item "source" (.obj [])) "url") = true then 4 else 2

/-- Substring test (`needle in haystack`), used to exhibit raw markup in a
rendered document. -/
def hasSubstr (needle : List Char) : List Char → Bool
  | [] => decide (needle = [])
  | c :: rest => needle.isPrefixOf (c :: rest) || hasSubstr needle rest

/-! ### Fixed-point predicates used by the idempotence proof -/

/-- After `fixTitle`, the heuristic's guard is dead: `title` is gone or
`headline` is present. -/
def titleDone (a : List (String × JValue)) : Prop :=
  jlookup a "title" = none ∨ (jlookup a "headline").isSome = true

/-- After `fixLinks`, its guard is dead: `links` is gone or `sources` is falsy. -/
def linksDone (a : List (String × JValue)) : Prop :=
  jlookup a "links" = none ∨ truthyOpt (jlookup a "sources") = false

/-- After `fixWhy`, its guard is dead: `why_it_matters` is present. -/
def whyDone (a : List (String × JValue)) : Prop :=
  (jlookup a "why_it_matters").isSome = true

/-- After `sigStep1`, its guard is dead. -/
def oneLinerDone (d : List (String × JValue)) : Prop :=
  jlookup d "one_liner" = none ∨ (jlookup d "headline").isSome = true

/-- After `sigStep2`, its guard is dead. -/
def linkDone (d : List (String × JValue)) : Prop :=
  jlookup d "link" = none ∨ (jlookup d "source").isSome = true

/-- A tier whose repair pass is exhausted: its list is element-wise fixed. -/
def tierRepaired (f : List (String × JValue)) (tier : String) : Prop :=
  match jlookup f tier with
  | some (.arr items) => items.map fixArticle = items
  | _ => True

/-- A signals value whose repair pass is exhausted. -/
def sigRepaired (f : List (String × JValue)) : Prop :=
  match jlookup f "signals" with
  | some sig => fixSignals sig = sig
  | none => True

/-- A regional summary that is no longer a bare string. -/
def regRepaired (f : List (String × JValue)) : Prop :=
  ∀ t : String, jlookup f "regional_summary" ≠ some (.str t)

/-! ## Association-list lemmas (Python-dict semantics) -/

theorem jlookup_jset_self (o : List (String × JValue)) (k : String) (v : JValue) :
    jlookup (jset o k v) k = some v := by
  induction o with
  | nil => simp [jset, jlookup]
  | cons p rest ih =>
    obtain ⟨k', w⟩ := p
    by_cases h : k' = k
    · simp [jset, h, jlookup]
    · simp [jset, h, jlookup, ih]

theorem jlookup_jset_ne (o : List (String × JValue)) (k k' : String) (v : JValue)
    (h : k' ≠ k) : jlookup (jset o k v) k' = jlookup o k' := by
  have hk : ¬ k = k' := fun h' => h h'.symm
  induction o with
  | nil => simp [jset, jlookup, hk]
  | cons p rest ih =>
    obtain ⟨k₀, w⟩ := p
    by_cases h0 : k₀ = k
    · subst h0
      simp [jset, jlookup, hk]
    · simp [jset, h0, jlookup, ih]

theorem jlookup_jerase_self (o : List (String × JValue)) (k : String) :
    jlookup (jerase o k) k = none := by
  induction o with
  | nil => simp [jerase, jlookup]
  | cons p rest ih =>
    obtain ⟨k', w⟩ := p
    by_cases h : k' = k
    · simpa [jerase, List.filter_cons, h] using ih
    · simpa [jerase, List.filter_cons, jlookup, h] using ih

theorem jlookup_jerase_ne (o : List (String × JValue)) (k k' : String)
    (h : k' ≠ k) : jlookup (jerase o k) k' = jlookup o k' := by
  have hk : ¬ k = k' := fun h' => h h'.symm
  induction o with
  | nil => simp [jerase]
  | cons p rest ih =>
    obtain ⟨k₀, w⟩ := p
    by_cases h0 : k₀ = k
    · subst h0
      simpa [jerase, List.filter_cons, jlookup, hk] using ih
    · simp only [jerase, ne_eq, decide_not] at ih
      simp [jerase, List.filter_cons, jlookup, h0, ih]

theorem jset_jset_self (o : List (String × JValue)) (k : String) (v w : JValue) :
    jset (jset o k v) k w = jset o k w := by
  induction o with
  | nil => simp [jset]
  | cons p rest ih =>
    obtain ⟨k', u⟩ := p
    by_cases h : k' = k
    · simp [jset, h]
    · simp [jset, h, ih]

theorem jset_eq_of_jlookup (o : List (String × JValue)) (k : String) (v : JValue)
    (h : jlookup o k = some v) : jset o k v = o := by
  induction o with
  | nil => simp [jlookup] at h
  | cons p rest ih =>
    obtain ⟨k', u⟩ := p
    by_cases h0 : k' = k
    · subst h0
      simp [jlookup] at h
      simp [jset, h]
    · simp [jlookup, h0] at h
      simp [jset, h0, ih h]

/-! ## Idempotence of the repair heuristics -/

theorem jlookup_fixTitle_ne (a : List (String × JValue)) (k : String)
    (h1 : k ≠ "title") (h2 : k ≠ "headline") :
    jlookup (fixTitle a) k = jlookup a k := by
  unfold fixTitle
  cases jlookup a "title" with
  | none => rfl
  | some t =>
    by_cases h : (jlookup a "headline").isSome
    · simp [h]
    · simp [h, jlookup_jset_ne _ _ _ _ h2, jlookup_jerase_ne _ _ _ h1]

theorem jlookup_fixLinks_ne (a : List (String × JValue)) (k : String)
    (h1 : k ≠ "links") (h2 : k ≠ "sources") :
    jlookup (fixLinks a) k = jlookup a k := by
  unfold fixLinks
  cases jlookup a "links" with
  | none => rfl
  | some links =>
    by_cases h : truthyOpt (jlookup a "sources") = true
    · simp only [h, if_pos]
      cases hs : jlookup (jerase a "links") "sources" with
      | none => simp [jlookup_jerase_ne _ _ _ h1]
      | some v =>
        cases v with
        | arr srcs => simp [jlookup_jset_ne _ _ _ _ h2, jlookup_jerase_ne _ _ _ h1]
        | null => simp [jlookup_jerase_ne _ _ _ h1]
        | bool b => simp [jlookup_jerase_ne _ _ _ h1]
        | num n => simp [jlookup_jerase_ne _ _ _ h1]
        | str s => simp [jlookup_jerase_ne _ _ _ h1]
        | obj o => simp [jlookup_jerase_ne _ _ _ h1]
    · simp [h]

theorem jlookup_fixWhy_ne (a : List (String × JValue)) (k : String)
    (h1 : k ≠ "why_it_matters") :
    jlookup (fixWhy a) k = jlookup a k := by
  unfold fixWhy
  by_cases h : (jlookup a "why_it_matters").isSome
  · simp [h]
  · simp [h, jlookup_jset_ne _ _ _ _ h1]

theorem fixTitle_eq_of_done (a : List (String × JValue)) (h : titleDone a) :
    fixTitle a = a := by
  unfold fixTitle
  cases ht : jlookup a "title" with
  | none => rfl
  | some t =>
    rcases h with h | h
    · rw [ht] at h; cases h
    · simp [h]

theorem fixLinks_eq_of_done (a : List (String × JValue)) (h : linksDone a) :
    fixLinks a = a := by
  unfold fixLinks
  cases hl : jlookup a "links" with
  | none => rfl
  | some links =>
    rcases h with h | h
    · rw [hl] at h; cases h
    · simp [h]

theorem fixWhy_eq_of_done (a : List (String × JValue)) (h : whyDone a) :
    fixWhy a = a := by
  unfold fixWhy
  exact if_pos h

theorem titleDone_fixTitle (a : List (String × JValue)) : titleDone (fixTitle a) := by
  unfold titleDone fixTitle
  split
  · split
    · next h => exact .inr h
    · next t ht h =>
      left
      rw [jlookup_jset_ne (jerase a "title") "headline" "title" t (by decide),
          jlookup_jerase_self]
  · next ht => exact .inl ht

theorem linksDone_fixLinks (a : List (String × JValue)) : linksDone (fixLinks a) := by
  unfold linksDone fixLinks
  split
  · next links hl =>
    split
    · next h =>
      split
      · next srcs hs =>
        left
        rw [jlookup_jset_ne (jerase a "links") "sources" "links" _ (by decide),
            jlookup_jerase_self]
      · next hs => exact .inl (jlookup_jerase_self a "links")
    · next h => exact .inr (by simpa using h)
  · next hl => exact .inl hl

theorem whyDone_fixWhy (a : List (String × JValue)) : whyDone (fixWhy a) := by
  unfold whyDone fixWhy
  split
  · next h => exact h
  · next h => simp [jlookup_jset_self]

theorem titleDone_fixLinks (a : List (String × JValue)) (h : titleDone a) :
    titleDone (fixLinks a) := by
  unfold titleDone
  rw [jlookup_fixLinks_ne _ _ (by decide) (by decide),
      jlookup_fixLinks_ne _ _ (by decide) (by decide)]
  exact h

theorem titleDone_fixWhy (a : List (String × JValue)) (h : titleDone a) :
    titleDone (fixWhy a) := by
  unfold titleDone
  rw [jlookup_fixWhy_ne _ _ (by decide), jlookup_fixWhy_ne _ _ (by decide)]
  exact h

theorem linksDone_fixWhy (a : List (String × JValue)) (h : linksDone a) :
    linksDone (fixWhy a) := by
  unfold linksDone
  rw [jlookup_fixWhy_ne _ _ (by decide), jlookup_fixWhy_ne _ _ (by decide)]
  exact h

/-- Each tier-article repair leaves an already-repaired article unchanged. -/
theorem fixArticle_idem (v : JValue) : fixArticle (fixArticle v) = fixArticle v := by
  cases v with
  | obj a =>
    have ht : titleDone (fixWhy (fixLinks (fixTitle a))) :=
      titleDone_fixWhy _ (titleDone_fixLinks _ (titleDone_fixTitle a))
    have hl : linksDone (fixWhy (fixLinks (fixTitle a))) :=
      linksDone_fixWhy _ (linksDone_fixLinks _)
    have hw : whyDone (fixWhy (fixLinks (fixTitle a))) := whyDone_fixWhy _
    simp only [fixArticle]
    rw [fixTitle_eq_of_done _ ht, fixLinks_eq_of_done _ hl, fixWhy_eq_of_done _ hw]
  | null => rfl
  | bool b => rfl
  | num n => rfl
  | str s => rfl
  | arr l => rfl

theorem jlookup_sigStep1_ne (d : List (String × JValue)) (k : String)
    (h1 : k ≠ "one_liner") (h2 : k ≠ "headline") :
    jlookup (sigStep1 d) k = jlookup d k := by
  unfold sigStep1
  split
  · split
    · rfl
    · next v hv h =>
      rw [jlookup_jset_ne (jerase d "one_liner") "headline" k v h2,
          jlookup_jerase_ne d "one_liner" k h1]
  · rfl

theorem sigStep1_eq_of_done (d : List (String × JValue)) (h : oneLinerDone d) :
    sigStep1 d = d := by
  unfold sigStep1
  split
  · next v hv =>
    rcases h with h | h
    · rw [hv] at h; cases h
    · rw [if_pos h]
  · rfl

theorem sigStep2_eq_of_done (d : List (String × JValue)) (h : linkDone d) :
    sigStep2 d = d := by
  unfold sigStep2
  split
  · next v hv =>
    rcases h with h | h
    · rw [hv] at h; cases h
    · rw [if_pos h]
  · rfl

theorem oneLinerDone_sigStep1 (d : List (String × JValue)) :
    oneLinerDone (sigStep1 d) := by
  unfold oneLinerDone sigStep1
  split
  · split
    · next h => exact .inr h
    · next v hv h =>
      left
      rw [jlookup_jset_ne (jerase d "one_liner") "headline" "one_liner" v (by decide),
          jlookup_jerase_self]
  · next hv => exact .inl hv

theorem linkDone_sigStep2 (d : List (String × JValue)) :
    linkDone (sigStep2 d) := by
  unfold linkDone sigStep2
  split
  · split
    · next h => exact .inr h
    · next v hv h =>
      left
      rw [jlookup_jset_ne (jerase d "link") "source" "link" (placeholderSource v) (by decide),
          jlookup_jerase_self]
  · next hv => exact .inl hv

theorem oneLinerDone_sigStep2 (d : List (String × JValue)) (h : oneLinerDone d) :
    oneLinerDone (sigStep2 d) := by
  unfold oneLinerDone sigStep2
  split
  · split
    · next => exact h
    · next v hv hns =>
      rcases h with h | h
      · left
        rw [jlookup_jset_ne (jerase d "link") "source" "one_liner" (placeholderSource v) (by decide),
            jlookup_jerase_ne d "link" "one_liner" (by decide)]
        exact h
      · right
        rw [jlookup_jset_ne (jerase d "link") "source" "headline" (placeholderSource v) (by decide),
            jlookup_jerase_ne d "link" "headline" (by decide)]
        exact h
  · next => exact h

/-- `fixSignalItem` maps every kept item to one of its own fixed points. -/
theorem fixSignalItem_fixpoint (v w : JValue) (h : fixSignalItem v = some w) :
    fixSignalItem w = some w := by
  cases v with
  | str s =>
    simp only [fixSignalItem] at h
    injection h with h
    subst h
    simp [fixSignalItem, sigStep1, sigStep2, jlookup, placeholderSource]
  | obj d =>
    simp only [fixSignalItem] at h
    injection h with h
    subst h
    have h1 : oneLinerDone (sigStep2 (sigStep1 d)) :=
      oneLinerDone_sigStep2 _ (oneLinerDone_sigStep1 d)
    have h2 : linkDone (sigStep2 (sigStep1 d)) := linkDone_sigStep2 _
    simp only [fixSignalItem]
    rw [sigStep1_eq_of_done _ h1, sigStep2_eq_of_done _ h2]
  | null => simp [fixSignalItem] at h
  | bool b => simp [fixSignalItem] at h
  | num n => simp [fixSignalItem] at h
  | arr l => simp [fixSignalItem] at h

theorem filterMap_fixSignalItem_idem (l : List JValue) :
    (l.filterMap fixSignalItem).filterMap fixSignalItem = l.filterMap fixSignalItem := by
  induction l with
  | nil => rfl
  | cons x xs ih =>
    cases h : fixSignalItem x with
    | none => simp [List.filterMap_cons, h, ih]
    | some w =>
      simp [List.filterMap_cons, h, fixSignalItem_fixpoint x w h, ih]

theorem fixCluster_idem (p : String × JValue) : fixCluster (fixCluster p) = fixCluster p := by
  obtain ⟨k, v⟩ := p
  cases v with
  | arr items => simp [fixCluster, clusterVal, filterMap_fixSignalItem_idem]
  | null => rfl
  | bool b => rfl
  | num n => rfl
  | str s => rfl
  | obj o => rfl

theorem fixSignals_idem (v : JValue) : fixSignals (fixSignals v) = fixSignals v := by
  cases v with
  | obj m =>
    simp only [fixSignals, List.map_map]
    exact congrArg _ (List.map_congr_left (fun p _ => fixCluster_idem p))
  | null => rfl
  | bool b => rfl
  | num n => rfl
  | str s => rfl
  | arr l => rfl

/-! ### Equation lemmas for the top-level blocks -/

theorem fixTier_lookup_none (f : List (String × JValue)) (tier : String)
    (hl : jlookup f tier = none) : fixTier f tier = f := by
  unfold fixTier; rw [hl]

theorem fixTier_lookup_arr (f : List (String × JValue)) (tier : String)
    (items : List JValue) (hl : jlookup f tier = some (.arr items)) :
    fixTier f tier = jset f tier (.arr (items.map fixArticle)) := by
  unfold fixTier; rw [hl]

theorem fixTier_lookup_other (f : List (String × JValue)) (tier : String)
    (v : JValue) (hl : jlookup f tier = some v) (hv : ∀ l, v ≠ .arr l) :
    fixTier f tier = f := by
  unfold fixTier
  rw [hl]
  cases v with
  | arr l => exact absurd rfl (hv l)
  | null => rfl
  | bool b => rfl
  | num n => rfl
  | str s => rfl
  | obj o => rfl

theorem sigField_lookup_none (f : List (String × JValue))
    (hl : jlookup f "signals" = none) : sigField f = f := by
  unfold sigField; rw [hl]

theorem sigField_lookup_some (f : List (String × JValue)) (sig : JValue)
    (hl : jlookup f "signals" = some sig) :
    sigField f = jset f "signals" (fixSignals sig) := by
  unfold sigField; rw [hl]

theorem regField_lookup_none (f : List (String × JValue))
    (hl : jlookup f "regional_summary" = none) : regField f = f := by
  unfold regField; rw [hl]

theorem regField_lookup_str (f : List (String × JValue)) (t : String)
    (hl : jlookup f "regional_summary" = some (.str t)) :
    regField f = jset f "regional_summary" (regionalFromString t) := by
  unfold regField; rw [hl]

theorem regField_lookup_other (f : List (String × JValue)) (v : JValue)
    (hl : jlookup f "regional_summary" = some v) (hv : ∀ t, v ≠ .str t) :
    regField f = f := by
  unfold regField
  rw [hl]
  cases v with
  | str t => exact absurd rfl (hv t)
  | null => rfl
  | bool b => rfl
  | num n => rfl
  | arr l => rfl
  | obj o => rfl

theorem jlookup_fixTier_ne (f : List (String × JValue)) (tier k : String)
    (h : k ≠ tier) : jlookup (fixTier f tier) k = jlookup f k := by
  cases hl : jlookup f tier with
  | none => rw [fixTier_lookup_none f tier hl]
  | some v =>
    cases v with
    | arr items =>
      rw [fixTier_lookup_arr f tier items hl, jlookup_jset_ne f tier k _ h]
    | null => rw [fixTier_lookup_other f tier _ hl (fun l h' => JValue.noConfusion h')]
    | bool b => rw [fixTier_lookup_other f tier _ hl (fun l h' => JValue.noConfusion h')]
    | num n => rw [fixTier_lookup_other f tier _ hl (fun l h' => JValue.noConfusion h')]
    | str s => rw [fixTier_lookup_other f tier _ hl (fun l h' => JValue.noConfusion h')]
    | obj o => rw [fixTier_lookup_other f tier _ hl (fun l h' => JValue.noConfusion h')]

theorem jlookup_sigField_ne (f : List (String × JValue)) (k : String)
    (h : k ≠ "signals") : jlookup (sigField f) k = jlookup f k := by
  cases hl : jlookup f "signals" with
  | none => rw [sigField_lookup_none f hl]
  | some sig => rw [sigField_lookup_some f sig hl, jlookup_jset_ne f "signals" k _ h]

theorem jlookup_regField_ne (f : List (String × JValue)) (k : String)
    (h : k ≠ "regional_summary") : jlookup (regField f) k = jlookup f k := by
  cases hl : jlookup f "regional_summary" with
  | none => rw [regField_lookup_none f hl]
  | some v =>
    cases v with
    | str t =>
      rw [regField_lookup_str f t hl, jlookup_jset_ne f "regional_summary" k _ h]
    | null => rw [regField_lookup_other f _ hl (fun t h' => JValue.noConfusion h')]
    | bool b => rw [regField_lookup_other f _ hl (fun t h' => JValue.noConfusion h')]
    | num n => rw [regField_lookup_other f _ hl (fun t h' => JValue.noConfusion h')]
    | arr l => rw [regField_lookup_other f _ hl (fun t h' => JValue.noConfusion h')]
    | obj o => rw [regField_lookup_other f _ hl (fun t h' => JValue.noConfusion h')]

/-! ### Fixed-point predicates for the top-level blocks -/

theorem tierRepaired_of_lookup_eq (f g : List (String × JValue)) (tier : String)
    (h : jlookup g tier = jlookup f tier) (hf : tierRepaired f tier) :
    tierRepaired g tier := by
  unfold tierRepaired at hf ⊢
  rw [h]
  exact hf

theorem sigRepaired_of_lookup_eq (f g : List (String × JValue))
    (h : jlookup g "signals" = jlookup f "signals") (hf : sigRepaired f) :
    sigRepaired g := by
  unfold sigRepaired at hf ⊢
  rw [h]
  exact hf

theorem fixTier_eq_of_repaired (f : List (String × JValue)) (tier : String)
    (h : tierRepaired f tier) : fixTier f tier = f := by
  cases hl : jlookup f tier with
  | none => exact fixTier_lookup_none f tier hl
  | some v =>
    cases v with
    | arr items =>
      rw [fixTier_lookup_arr f tier items hl]
      unfold tierRepaired at h
      rw [hl] at h
      have h' : items.map fixArticle = items := h
      rw [h']
      exact jset_eq_of_jlookup f tier _ hl
    | null => exact fixTier_lookup_other f tier _ hl (fun l h' => JValue.noConfusion h')
    | bool b => exact fixTier_lookup_other f tier _ hl (fun l h' => JValue.noConfusion h')
    | num n => exact fixTier_lookup_other f tier _ hl (fun l h' => JValue.noConfusion h')
    | str s => exact fixTier_lookup_other f tier _ hl (fun l h' => JValue.noConfusion h')
    | obj o => exact fixTier_lookup_other f tier _ hl (fun l h' => JValue.noConfusion h')

theorem sigField_eq_of_repaired (f : List (String × JValue))
    (h : sigRepaired f) : sigField f = f := by
  cases hl : jlookup f "signals" with
  | none => exact sigField_lookup_none f hl
  | some sig =>
    rw [sigField_lookup_some f sig hl]
    unfold sigRepaired at h
    rw [hl] at h
    have h' : fixSignals sig = sig := h
    rw [h']
    exact jset_eq_of_jlookup f "signals" sig hl

theorem regField_eq_of_repaired (f : List (String × JValue))
    (h : regRepaired f) : regField f = f := by
  cases hl : jlookup f "regional_summary" with
  | none => exact regField_lookup_none f hl
  | some v =>
    cases v with
    | str t => exact absurd hl (h t)
    | null => exact regField_lookup_other f _ hl (fun t h' => JValue.noConfusion h')
    | bool b => exact regField_lookup_other f _ hl (fun t h' => JValue.noConfusion h')
    | num n => exact regField_lookup_other f _ hl (fun t h' => JValue.noConfusion h')
    | arr l => exact regField_lookup_other f _ hl (fun t h' => JValue.noConfusion h')
    | obj o => exact regField_lookup_other f _ hl (fun t h' => JValue.noConfusion h')

theorem tierRepaired_fixTier (f : List (String × JValue)) (tier : String) :
    tierRepaired (fixTier f tier) tier := by
  cases hl : jlookup f tier with
  | none =>
    rw [fixTier_lookup_none f tier hl]
    unfold tierRepaired
    rw [hl]
    trivial
  | some v =>
    cases v with
    | arr items =>
      rw [fixTier_lookup_arr f tier items hl]
      unfold tierRepaired
      rw [jlookup_jset_self]
      show (items.map fixArticle).map fixArticle = items.map fixArticle
      rw [List.map_map]
      exact List.map_congr_left fun a _ => fixArticle_idem a
    | null =>
      rw [fixTier_lookup_other f tier _ hl (fun l h' => JValue.noConfusion h')]
      unfold tierRepaired
      rw [hl]
      trivial
    | bool b =>
      rw [fixTier_lookup_other f tier _ hl (fun l h' => JValue.noConfusion h')]
      unfold tierRepaired
      rw [hl]
      trivial
    | num n =>
      rw [fixTier_lookup_other f tier _ hl (fun l h' => JValue.noConfusion h')]
      unfold tierRepaired
      rw [hl]
      trivial
    | str s =>
      rw [fixTier_lookup_other f tier _ hl (fun l h' => JValue.noConfusion h')]
      unfold tierRepaired
      rw [hl]
      trivial
    | obj o =>
      rw [fixTier_lookup_other f tier _ hl (fun l h' => JValue.noConfusion h')]
      unfold tierRepaired
      rw [hl]
      trivial

theorem sigRepaired_sigField (f : List (String × JValue)) :
    sigRepaired (sigField f) := by
  cases hl : jlookup f "signals" with
  | none =>
    rw [sigField_lookup_none f hl]
    unfold sigRepaired
    rw [hl]
    trivial
  | some sig =>
    rw [sigField_lookup_some f sig hl]
    unfold sigRepaired
    rw [jlookup_jset_self]
    show fixSignals (fixSignals sig) = fixSignals sig
    exact fixSignals_idem sig

theorem regRepaired_regField (f : List (String × JValue)) :
    regRepaired (regField f) := by
  cases hl : jlookup f "regional_summary" with
  | none =>
    rw [regField_lookup_none f hl]
    intro t ht
    rw [hl] at ht
    cases ht
  | some v =>
    cases v with
    | str t =>
      rw [regField_lookup_str f t hl]
      intro t' ht
      rw [jlookup_jset_self] at ht
      injection ht with ht
      exact JValue.noConfusion ht
    | null =>
      rw [regField_lookup_other f _ hl (fun t h' => JValue.noConfusion h')]
      intro t ht
      rw [hl] at ht
      injection ht with ht
      exact JValue.noConfusion ht
    | bool b =>
      rw [regField_lookup_other f _ hl (fun t h' => JValue.noConfusion h')]
      intro t ht
      rw [hl] at ht
      injection ht with ht
      exact JValue.noConfusion ht
    | num n =>
      rw [regField_lookup_other f _ hl (fun t h' => JValue.noConfusion h')]
      intro t ht
      rw [hl] at ht
      injection ht with ht
      exact JValue.noConfusion ht
    | arr l =>
      rw [regField_lookup_other f _ hl (fun t h' => JValue.noConfusion h')]
      intro t ht
      rw [hl] at ht
      injection ht with ht
      exact JValue.noConfusion ht
    | obj o =>
      rw [regField_lookup_other f _ hl (fun t h' => JValue.noConfusion h')]
      intro t ht
      rw [hl] at ht
      injection ht with ht
      exact JValue.noConfusion ht

/-- The whole per-dict repair pass is idempotent. -/
theorem fixFields_idem (f : List (String × JValue)) :
    fixFields (fixFields f) = fixFields f := by
  have hmk : fixTier (fixFields f) "must_know" = fixFields f := by
    apply fixTier_eq_of_repaired
    apply tierRepaired_of_lookup_eq (fixTier f "must_know") _ "must_know"
    · show jlookup (fixFields f) "must_know" = _
      unfold fixFields
      rw [jlookup_regField_ne _ _ (by decide), jlookup_sigField_ne _ _ (by decide),
          jlookup_fixTier_ne _ _ _ (by decide)]
    · exact tierRepaired_fixTier f "must_know"
  have hsk : fixTier (fixFields f) "should_know" = fixFields f := by
    apply fixTier_eq_of_repaired
    apply tierRepaired_of_lookup_eq (fixTier (fixTier f "must_know") "should_know") _ "should_know"
    · show jlookup (fixFields f) "should_know" = _
      unfold fixFields
      rw [jlookup_regField_ne _ _ (by decide), jlookup_sigField_ne _ _ (by decide)]
    · exact tierRepaired_fixTier (fixTier f "must_know") "should_know"
  have hsig : sigField (fixFields f) = fixFields f := by
    apply sigField_eq_of_repaired
    apply sigRepaired_of_lookup_eq
      (sigField (fixTier (fixTier f "must_know") "should_know"))
    · show jlookup (fixFields f) "signals" = _
      unfold fixFields
      rw [jlookup_regField_ne _ _ (by decide)]
    · exact sigRepaired_sigField (fixTier (fixTier f "must_know") "should_know")
  have hreg : regField (fixFields f) = fixFields f := by
    apply regField_eq_of_repaired
    exact regRepaired_regField (sigField (fixTier (fixTier f "must_know") "should_know"))
  show regField (sigField (fixTier (fixTier (fixFields f) "must_know") "should_know"))
      = fixFields f
  rw [hmk, hsk, hsig, hreg]

/-- Claim C2 carrier: `fix_selections_schema` is idempotent on every JSON value. -/
theorem fix_selections_schema_idem_aux (s : JValue) :
    fix_selections_schema (fix_selections_schema s) = fix_selections_schema s := by
  cases s with
  | obj fields => exact congrArg JValue.obj (fixFields_idem fields)
  | null => rfl
  | bool b => rfl
  | num n => rfl
  | str t => rfl
  | arr l => rfl

theorem jlookup_map_fixCluster (m : List (String × JValue)) (k : String) :
    jlookup (m.map fixCluster) k = (jlookup m k).map clusterVal := by
  induction m with
  | nil => rfl
  | cons p rest ih =>
    obtain ⟨k0, v⟩ := p
    by_cases h : k0 = k
    · simp [fixCluster, jlookup, h]
    · simp [fixCluster, jlookup, h, ih]

theorem patchSources_length (links : JValue) (j : Nat) (l : List JValue) :
    (patchSources links j l).length = l.length := by
  induction l generalizing j with
  | nil => rfl
  | cons x xs ih => simp [patchSources, ih]

theorem patchSources_get (links : JValue) (j : Nat) (l : List JValue) (i : Nat) :
    (patchSources links j l)[i]? = (l[i]?).map (patchSource links (j + i)) := by
  induction l generalizing j i with
  | nil => simp [patchSources]
  | cons x xs ih =>
    cases i with
    | zero => simp [patchSources]
    | succ n =>
      have hj : j + (n + 1) = (j + 1) + n := by omega
      rw [hj]
      simpa [patchSources] using ih (j + 1) n

theorem truthy_arr_of_ne_nil (l : List JValue) (h : l ≠ []) :
    truthy (.arr l) = true := by
  cases l with
  | nil => exact absurd rfl h
  | cons x xs => simp [truthy]

/-- The lookup of any key that none of the repair blocks write is the same
before and after `fix_selections_schema` steps 1-2 (both tiers). -/
theorem jlookup_tiers_ne (fields : List (String × JValue)) (k : String)
    (h1 : k ≠ "must_know") (h2 : k ≠ "should_know") :
    jlookup (fixTier (fixTier fields "must_know") "should_know") k = jlookup fields k := by
  rw [jlookup_fixTier_ne _ _ _ h2, jlookup_fixTier_ne _ _ _ h1]

/-! ## Claim theorems for the repair pass -/

/-- C2: the schema-repair pass is idempotent — applying
`fix_selections_schema` twice to any input yields the same structure as
applying it once. -/
theorem C2_fix_selections_schema_idempotent (s : JValue) :
    fix_selections_schema (fix_selections_schema s) = fix_selections_schema s :=
  fix_selections_schema_idem_aux s

/-- C7: when the input's `regional_summary` is a single string, the repair
pass turns it into the per-region mapping that assigns the string to the
designated default region `americas` and the empty string to every other
region of the fixed region set. -/
theorem C7_regional_summary_string_coerced (fields : List (String × JValue)) (t : String)
    (h : jlookup fields "regional_summary" = some (.str t)) :
    jget (fix_selections_schema (.obj fields)) "regional_summary" =
      some (.obj [("americas", .str t), ("europe", .str ""), ("asia_pacific", .str ""),
                  ("middle_east_africa", .str ""), ("tech", .str "")]) := by
  show jlookup (fixFields fields) "regional_summary" = _
  unfold fixFields
  have h2 : jlookup (sigField (fixTier (fixTier fields "must_know") "should_know"))
      "regional_summary" = some (.str t) := by
    rw [jlookup_sigField_ne _ _ (by decide), jlookup_tiers_ne _ _ (by decide) (by decide)]
    exact h
  rw [regField_lookup_str _ t h2, jlookup_jset_self]
  rfl

/-- Witness for C7 at a concrete one-key selections dict. -/
theorem C7_witness :
    jlookup [("regional_summary", JValue.str "Busy day")] "regional_summary" =
        some (.str "Busy day") ∧
    jget (fix_selections_schema (.obj [("regional_summary", JValue.str "Busy day")]))
        "regional_summary" =
      some (.obj [("americas", .str "Busy day"), ("europe", .str ""),
                  ("asia_pacific", .str ""), ("middle_east_africa", .str ""),
                  ("tech", .str "")]) :=
  ⟨rfl, C7_regional_summary_string_coerced [("regional_summary", JValue.str "Busy day")]
    "Busy day" rfl⟩

/-- C8 counterexample: the claim "every bare-string signal becomes an object
with a non-empty `headline`" fails at the bare string `""` — the repair wraps
it into an object whose `headline` is the empty string. -/
theorem C8_counterexample :
    jget (fix_selections_schema
        (.obj [("signals", .obj [("americas", .arr [JValue.str ""])])])) "signals" =
      some (.obj [("americas",
        .arr [.obj [("headline", JValue.str ""), ("source", placeholderSource (.str ""))]])]) ∧
    ¬ ∃ h : String,
        jlookup [("headline", JValue.str ""), ("source", placeholderSource (.str ""))]
            "headline" = some (.str h) ∧ h ≠ "" := by
  constructor
  · rfl
  · rintro ⟨h, hh, hne⟩
    simp [jlookup] at hh
    exact hne hh.symm

/-- C8 (amended): a bare-string signal in any region cluster is replaced by an
object whose `headline` is exactly that string (hence non-empty whenever the
string itself is non-empty) and whose `source` is the placeholder object with
`name`, `url` and `bias` fields. -/
theorem C8_bare_string_signal_wrapped (fields m : List (String × JValue)) (k : String)
    (items : List JValue) (s : String)
    (hsig : jlookup fields "signals" = some (.obj m))
    (hcl : jlookup m k = some (.arr items))
    (hmem : JValue.str s ∈ items) :
    jget (fix_selections_schema (.obj fields)) "signals" = some (.obj (m.map fixCluster)) ∧
    jlookup (m.map fixCluster) k = some (.arr (items.filterMap fixSignalItem)) ∧
    (JValue.obj [("headline", .str s),
        ("source", .obj [("name", .str "Source"), ("url", .str ""), ("bias", .str "center")])])
      ∈ items.filterMap fixSignalItem ∧
    (s ≠ "" → truthy (.str s) = true) := by
  refine ⟨?_, ?_, ?_, ?_⟩
  · show jlookup (fixFields fields) "signals" = _
    unfold fixFields
    have h1 : jlookup (fixTier (fixTier fields "must_know") "should_know") "signals"
        = some (.obj m) := by
      rw [jlookup_tiers_ne _ _ (by decide) (by decide)]
      exact hsig
    rw [jlookup_regField_ne _ _ (by decide), sigField_lookup_some _ _ h1, jlookup_jset_self]
    rfl
  · rw [jlookup_map_fixCluster, hcl]
    rfl
  · exact List.mem_filterMap.mpr ⟨.str s, hmem, rfl⟩
  · intro hs
    simp [truthy, hs]

/-- Witness for C8's amended theorem at a concrete signals cluster. -/
theorem C8_witness :
    jlookup [("signals", JValue.obj [("americas", .arr [JValue.str "US economy grows"])])]
        "signals" = some (.obj [("americas", .arr [JValue.str "US economy grows"])]) ∧
    jlookup [("americas", JValue.arr [JValue.str "US economy grows"])] "americas" =
        some (.arr [JValue.str "US economy grows"]) ∧
    JValue.str "US economy grows" ∈ [JValue.str "US economy grows"] ∧
    (jget (fix_selections_schema
        (.obj [("signals", JValue.obj [("americas", .arr [JValue.str "US economy grows"])])]))
        "signals" =
      some (.obj ([("americas", JValue.arr [JValue.str "US economy grows"])].map fixCluster)) ∧
    jlookup ([("americas", JValue.arr [JValue.str "US economy grows"])].map fixCluster)
        "americas" = some (.arr ([JValue.str "US economy grows"].filterMap fixSignalItem)) ∧
    (JValue.obj [("headline", .str "US economy grows"),
        ("source", .obj [("name", .str "Source"), ("url", .str ""), ("bias", .str "center")])])
      ∈ [JValue.str "US economy grows"].filterMap fixSignalItem ∧
    ("US economy grows" ≠ "" → truthy (.str "US economy grows") = true)) :=
  ⟨rfl, rfl, List.mem_singleton.mpr rfl,
    C8_bare_string_signal_wrapped
      [("signals", JValue.obj [("americas", .arr [JValue.str "US economy grows"])])]
      [("americas", JValue.arr [JValue.str "US economy grows"])]
      "americas" [JValue.str "US economy grows"] "US economy grows"
      rfl rfl (List.mem_singleton.mpr rfl)⟩

/-- C10: the links-array unwrap pops `links`, touches no other key, keeps the
sources list's length, assigns `links[i]` only to an in-range source whose
`url` is absent or empty, and leaves a source with a truthy `url` — and every
field other than `url` of a patched source — unchanged. -/
theorem C10_links_unwrap_frame (a : List (String × JValue)) (ls srcs : List JValue)
    (hlinks : jlookup a "links" = some (.arr ls))
    (hsrcs : jlookup a "sources" = some (.arr srcs))
    (hne : srcs ≠ []) :
    jlookup (fixLinks a) "links" = none ∧
    (∀ k, k ≠ "links" → k ≠ "sources" → jlookup (fixLinks a) k = jlookup a k) ∧
    jlookup (fixLinks a) "sources" =
        some (JValue.arr (patchSources (JValue.arr ls) 0 srcs)) ∧
    (patchSources (JValue.arr ls) 0 srcs).length = srcs.length ∧
    (∀ (i : Nat) (src : JValue), srcs[i]? = some src →
        ∀ (o : List (String × JValue)), src = JValue.obj o →
        truthyOpt (jlookup o "url") = true →
        (patchSources (JValue.arr ls) 0 srcs)[i]? = some src) ∧
    (∀ (i : Nat) (src : JValue), srcs[i]? = some src → ls.length ≤ i →
        (patchSources (JValue.arr ls) 0 srcs)[i]? = some src) ∧
    (∀ (i : Nat) (o : List (String × JValue)), srcs[i]? = some (JValue.obj o) →
        i < ls.length →
        (jlookup o "url" = none ∨ jlookup o "url" = some (JValue.str "")) →
        (patchSources (JValue.arr ls) 0 srcs)[i]? =
            some (JValue.obj (jset o "url" (ls.getD i JValue.null))) ∧
        jlookup (jset o "url" (ls.getD i JValue.null)) "url" =
            some (ls.getD i JValue.null) ∧
        (∀ k, k ≠ "url" →
            jlookup (jset o "url" (ls.getD i JValue.null)) k = jlookup o k)) := by
  have htr : truthyOpt (jlookup a "sources") = true := by
    rw [hsrcs]
    exact truthy_arr_of_ne_nil srcs hne
  have hs1 : jlookup (jerase a "links") "sources" = some (.arr srcs) := by
    rw [jlookup_jerase_ne a "links" "sources" (by decide)]
    exact hsrcs
  have heq : fixLinks a =
      jset (jerase a "links") "sources" (.arr (patchSources (.arr ls) 0 srcs)) := by
    unfold fixLinks
    rw [hlinks]
    simp only [htr, if_true, hs1]
  refine ⟨?_, ?_, ?_, patchSources_length _ _ _, ?_, ?_, ?_⟩
  · rw [heq, jlookup_jset_ne _ "sources" "links" _ (by decide), jlookup_jerase_self]
  · intro k h1 h2
    rw [heq, jlookup_jset_ne _ "sources" k _ h2, jlookup_jerase_ne a "links" k h1]
  · rw [heq, jlookup_jset_self]
  · intro i src hi o ho htrue
    subst ho
    rw [patchSources_get, hi]
    simp [patchSource, htrue]
  · intro i src hi hge
    rw [patchSources_get, hi]
    cases src with
    | obj o => simp [patchSource, jlen, Nat.not_lt.mpr hge]
    | null => rfl
    | bool b => rfl
    | num n => rfl
    | str t => rfl
    | arr l => rfl
  · intro i o hi hlt hurl
    have hfalse : truthyOpt (jlookup o "url") = false := by
      rcases hurl with hurl | hurl <;> simp [truthyOpt, truthy, hurl]
    refine ⟨?_, jlookup_jset_self o "url" _, fun k hk => jlookup_jset_ne o "url" k _ hk⟩
    rw [patchSources_get, hi]
    simp [patchSource, jlen, hlt, hfalse, jidx]

/-- Witness for C10 at the links-array example from the repository's tests. -/
theorem C10_witness :
    jlookup [("headline", JValue.str "News"),
      ("sources", JValue.arr [.obj [("name", .str "BBC"), ("bias", .str "center")],
                              .obj [("name", .str "CNN"), ("bias", .str "left")]]),
      ("links", JValue.arr [.str "https://bbc.com/1", .str "https://cnn.com/2"])] "links" =
        some (.arr [.str "https://bbc.com/1", .str "https://cnn.com/2"]) ∧
    jlookup [("headline", JValue.str "News"),
      ("sources", JValue.arr [.obj [("name", .str "BBC"), ("bias", .str "center")],
                              .obj [("name", .str "CNN"), ("bias", .str "left")]]),
      ("links", JValue.arr [.str "https://bbc.com/1", .str "https://cnn.com/2"])] "sources" =
        some (.arr [.obj [("name", .str "BBC"), ("bias", .str "center")],
                    .obj [("name", .str "CNN"), ("bias", .str "left")]]) ∧
    ([JValue.obj [("name", .str "BBC"), ("bias", .str "center")],
      JValue.obj [("name", .str "CNN"), ("bias", .str "left")]] ≠ ([] : List JValue)) ∧
    jlookup (fixLinks [("headline", JValue.str "News"),
      ("sources", JValue.arr [.obj [("name", .str "BBC"), ("bias", .str "center")],
                              .obj [("name", .str "CNN"), ("bias", .str "left")]]),
      ("links", JValue.arr [.str "https://bbc.com/1", .str "https://cnn.com/2"])]) "links" =
        none :=
  ⟨rfl, rfl, List.cons_ne_nil _ _,
    (C10_links_unwrap_frame
      [("headline", JValue.str "News"),
       ("sources", JValue.arr [.obj [("name", .str "BBC"), ("bias", .str "center")],
                               .obj [("name", .str "CNN"), ("bias", .str "left")]]),
       ("links", JValue.arr [.str "https://bbc.com/1", .str "https://cnn.com/2"])]
      [.str "https://bbc.com/1", .str "https://cnn.com/2"]
      [.obj [("name", .str "BBC"), ("bias", .str "center")],
       .obj [("name", .str "CNN"), ("bias", .str "left")]]
      rfl rfl (List.cons_ne_nil _ _)).1⟩

/-! ## URL safety lemmas and claim C6 -/

/-- Two prefixes of the same string are nested: the shorter one is a prefix of
the longer one. -/
theorem hasPrefixL_nested (p q u : List Char) (hp : hasPrefixL p u = true)
    (hq : hasPrefixL q u = true) (hle : p.length ≤ q.length) :
    hasPrefixL p q = true := by
  induction p generalizing q u with
  | nil => rfl
  | cons a as ih =>
    cases u with
    | nil => simp [hasPrefixL] at hp
    | cons c cs =>
      simp only [hasPrefixL, Bool.and_eq_true, decide_eq_true_eq] at hp
      obtain ⟨hac, hp'⟩ := hp
      cases q with
      | nil => simp at hle
      | cons b bs =>
        simp only [hasPrefixL, Bool.and_eq_true, decide_eq_true_eq] at hq
        obtain ⟨hbc, hq'⟩ := hq
        simp only [hasPrefixL, Bool.and_eq_true, decide_eq_true_eq]
        constructor
        · rw [hac, hbc]
        · exact ih bs cs hp' hq' (by simpa using hle)

/-- C6: `is_safe_url` accepts every string starting with `http://` or
`https://` and rejects every `javascript:`, `data:` and `file:` URL as well as
the empty string. -/
theorem C6_is_safe_url_spec :
    (∀ u : String, hasPrefixL "http://".data u.data = true → is_safe_url u = true) ∧
    (∀ u : String, hasPrefixL "https://".data u.data = true → is_safe_url u = true) ∧
    (∀ u : String, hasPrefixL "javascript:".data u.data = true → is_safe_url u = false) ∧
    (∀ u : String, hasPrefixL "data:".data u.data = true → is_safe_url u = false) ∧
    (∀ u : String, hasPrefixL "file:".data u.data = true → is_safe_url u = false) ∧
    is_safe_url "" = false := by
  refine ⟨?_, ?_, ?_, ?_, ?_, by decide⟩
  · intro u h
    unfold is_safe_url
    rw [h]
    rfl
  · intro u h
    unfold is_safe_url
    rw [h]
    simp
  · intro u h
    unfold is_safe_url
    have h1 : hasPrefixL "http://".data u.data = false := by
      by_contra hc
      rw [Bool.not_eq_false] at hc
      exact absurd (hasPrefixL_nested _ _ _ hc h (by decide)) (by decide)
    have h2 : hasPrefixL "https://".data u.data = false := by
      by_contra hc
      rw [Bool.not_eq_false] at hc
      exact absurd (hasPrefixL_nested _ _ _ hc h (by decide)) (by decide)
    rw [h1, h2]
    rfl
  · intro u h
    unfold is_safe_url
    have h1 : hasPrefixL "http://".data u.data = false := by
      by_contra hc
      rw [Bool.not_eq_false] at hc
      exact absurd (hasPrefixL_nested _ _ _ h hc (by decide)) (by decide)
    have h2 : hasPrefixL "https://".data u.data = false := by
      by_contra hc
      rw [Bool.not_eq_false] at hc
      exact absurd (hasPrefixL_nested _ _ _ h hc (by decide)) (by decide)
    rw [h1, h2]
    rfl
  · intro u h
    unfold is_safe_url
    have h1 : hasPrefixL "http://".data u.data = false := by
      by_contra hc
      rw [Bool.not_eq_false] at hc
      exact absurd (hasPrefixL_nested _ _ _ h hc (by decide)) (by decide)
    have h2 : hasPrefixL "https://".data u.data = false := by
      by_contra hc
      rw [Bool.not_eq_false] at hc
      exact absurd (hasPrefixL_nested _ _ _ h hc (by decide)) (by decide)
    rw [h1, h2]
    rfl

/-- Witness for C6 at the URLs exercised by the repository's tests. -/
theorem C6_witness :
    hasPrefixL "http://".data "http://example.com".data = true ∧
    is_safe_url "http://example.com" = true ∧
    hasPrefixL "javascript:".data "javascript:alert(1)".data = true ∧
    is_safe_url "javascript:alert(1)" = false ∧
    hasPrefixL "data:".data "data:text/html".data = true ∧
    is_safe_url "data:text/html" = false ∧
    hasPrefixL "file:".data "file:///etc/passwd".data = true ∧
    is_safe_url "file:///etc/passwd" = false :=
  ⟨by decide, C6_is_safe_url_spec.1 "http://example.com" (by decide),
   by decide, C6_is_safe_url_spec.2.2.1 "javascript:alert(1)" (by decide),
   by decide, C6_is_safe_url_spec.2.2.2.1 "data:text/html" (by decide),
   by decide, C6_is_safe_url_spec.2.2.2.2.1 "file:///etc/passwd" (by decide)⟩

/-! ## Fetch retry loop: claim C3 -/

theorem fetch_source_go_zero (outcome : Nat → AttemptResult)
    (maxRetries retryDelay attempt : Nat) (lastErr : Option String) (delays : List Nat) :
    fetch_source_go outcome maxRetries retryDelay 0 attempt lastErr delays =
      ⟨attempt, delays, [],
       some ("Failed after " ++ toString maxRetries ++ " retries: " ++ lastErr.getD "Unknown")⟩ :=
  rfl

theorem fetch_source_go_transient (outcome : Nat → AttemptResult)
    (maxRetries retryDelay remaining attempt : Nat) (lastErr : Option String)
    (delays : List Nat) (reason : String)
    (hout : outcome attempt = .transientErr reason) :
    fetch_source_go outcome maxRetries retryDelay (remaining + 1) attempt lastErr delays =
      if remaining = 0 then
        fetch_source_go outcome maxRetries retryDelay remaining (attempt + 1)
          (some reason) delays
      else
        fetch_source_go outcome maxRetries retryDelay remaining (attempt + 1)
          (some reason) (delays ++ [retryDelay * 2 ^ attempt]) := by
  conv_lhs => rw [fetch_source_go]
  rw [hout]

theorem fetch_go_all_transient (outcome : Nat → AttemptResult)
    (maxRetries retryDelay : Nat) (msgs : Nat → String)
    (h : ∀ i, i < maxRetries → outcome i = .transientErr (msgs i)) :
    ∀ remaining attempt delays lastErr,
      remaining + attempt = maxRetries → 0 < remaining →
      fetch_source_go outcome maxRetries retryDelay remaining attempt lastErr delays =
        ⟨maxRetries,
         delays ++ (List.range (remaining - 1)).map
            (fun i => retryDelay * 2 ^ (attempt + i)),
         [], some ("Failed after " ++ toString maxRetries ++ " retries: "
                    ++ msgs (maxRetries - 1))⟩ := by
  intro remaining
  induction remaining with
  | zero => intro attempt delays lastErr _ h0; cases h0
  | succ r ih =>
    intro attempt delays lastErr hsum _
    have hatt : attempt < maxRetries := by omega
    have hout := h attempt hatt
    cases r with
    | zero =>
      have ha : attempt + 1 = maxRetries := by omega
      have hm : maxRetries - 1 = attempt := by omega
      rw [fetch_source_go_transient outcome maxRetries retryDelay 0 attempt lastErr delays
            (msgs attempt) hout, if_pos rfl, fetch_source_go_zero]
      simp [ha, hm]
    | succ r' =>
      have hne : r' + 1 ≠ 0 := by omega
      rw [fetch_source_go_transient outcome maxRetries retryDelay (r' + 1) attempt lastErr
            delays (msgs attempt) hout, if_neg hne]
      rw [ih (attempt + 1) (delays ++ [retryDelay * 2 ^ attempt]) (some (msgs attempt))
            (by omega) (by omega)]
      have hrange :
          (retryDelay * 2 ^ attempt) ::
              (List.range (r' + 1 - 1)).map (fun i => retryDelay * 2 ^ (attempt + 1 + i)) =
            (List.range (r' + 1 + 1 - 1)).map (fun i => retryDelay * 2 ^ (attempt + i)) := by
        simp only [Nat.add_sub_cancel]
        rw [List.range_succ_eq_map]
        simp only [List.map_cons, List.map_map, Nat.add_zero]
        congr 1
        apply List.map_congr_left
        intro i _
        have hx : attempt + (i + 1) = attempt + 1 + i := by omega
        simp [Function.comp, hx]
      rw [List.append_assoc]
      simp only [List.singleton_append, hrange]

/-- C3: when every attempt raises a retryable (network/timeout) error,
`fetch_source` makes exactly `MAX_RETRIES` attempts, sleeping
`RETRY_DELAY * 2 ^ attempt` between consecutive attempts, and returns an
empty article list with the descriptive "Failed after N retries" error; a
malformed feed (bozo with no entries) instead returns after the first attempt
with no retry and no sleep. -/
theorem C3_fetch_retry_behaviour :
    (∀ (outcome : Nat → AttemptResult) (maxRetries retryDelay : Nat)
        (msgs : Nat → String),
      0 < maxRetries →
      (∀ i, i < maxRetries → outcome i = .transientErr (msgs i)) →
      fetch_source outcome maxRetries retryDelay =
        ⟨maxRetries,
         (List.range (maxRetries - 1)).map (fun i => retryDelay * 2 ^ i), [],
         some ("Failed after " ++ toString maxRetries ++ " retries: "
                ++ msgs (maxRetries - 1))⟩) ∧
    (∀ (outcome : Nat → AttemptResult) (maxRetries retryDelay : Nat) (msg : String),
      0 < maxRetries → outcome 0 = .parsed (some msg) [] →
      fetch_source outcome maxRetries retryDelay =
        ⟨1, [], [], some ("Feed parse error: " ++ msg)⟩) := by
  constructor
  · intro outcome maxRetries retryDelay msgs hpos h
    unfold fetch_source
    rw [fetch_go_all_transient outcome maxRetries retryDelay msgs h maxRetries 0 [] none
          (by omega) hpos]
    simp
  · intro outcome maxRetries retryDelay msg hpos hout
    cases maxRetries with
    | zero => exact absurd hpos (by omega)
    | succ n =>
      show fetch_source_go outcome (n + 1) retryDelay (n + 1) 0 none [] = _
      conv_lhs => rw [fetch_source_go]
      rw [hout]

/-- Witness for C3: a source timing out on all 3 attempts sleeps 2s then 4s
and fails; a bozo feed returns at once. -/
theorem C3_witness :
    0 < 3 ∧
    (∀ i, i < 3 → (fun _ : Nat => AttemptResult.transientErr "timed out") i =
        .transientErr ((fun _ : Nat => "timed out") i)) ∧
    fetch_source (fun _ => .transientErr "timed out") 3 2 =
      ⟨3, (List.range (3 - 1)).map (fun i => 2 * 2 ^ i), [],
       some ("Failed after " ++ toString 3 ++ " retries: " ++ "timed out")⟩ ∧
    (fun _ : Nat => AttemptResult.parsed (some "not well-formed") ([] : List Entry)) 0 =
        .parsed (some "not well-formed") [] ∧
    fetch_source (fun _ => .parsed (some "not well-formed") []) 3 2 =
      ⟨1, [], [], some ("Feed parse error: " ++ "not well-formed")⟩ :=
  ⟨by decide, fun _ _ => rfl,
   C3_fetch_retry_behaviour.1 (fun _ => .transientErr "timed out") 3 2
     (fun _ => "timed out") (by decide) (fun _ _ => rfl),
   rfl,
   C3_fetch_retry_behaviour.2 (fun _ => .parsed (some "not well-formed") []) 3 2
     "not well-formed" (by decide) rfl⟩

/-- C4: with no previous run every article is kept; with a watermark `t`, an
article passes the filter iff its published string fails to parse or parses
to a timestamp strictly after `t`. -/
theorem C4_filter_keep_iff :
    (∀ (iso rfc : String → Option Int) (articles : List Article),
        filter_new iso rfc none articles = articles) ∧
    (∀ (iso rfc : String → Option Int) (t : Int) (articles : List Article)
        (a : Article),
        a ∈ filter_new iso rfc (some t) articles ↔
          a ∈ articles ∧
            (parse_date iso rfc a.published = none ∨
             ∃ pub, parse_date iso rfc a.published = some pub ∧ t < pub)) := by
  constructor
  · intro iso rfc articles
    rfl
  · intro iso rfc t articles a
    simp only [filter_new, List.mem_filter]
    apply and_congr (Iff.refl _)
    cases hp : parse_date iso rfc a.published with
    | none => simp
    | some pub => simp

/-- C5: in the full pipeline (recording and email enabled), a run whose
broadcast send raises performs the send attempt but never reaches
`record_shown_headlines` or `record_run`; a successful send is followed by
both records and the cleanup. -/
theorem C5_record_only_after_send :
    main_tail false false false = ([.saveDigest, .sendBroadcast], false) ∧
    PipelineEvent.recordShownHeadlines ∉ (main_tail false false false).1 ∧
    PipelineEvent.recordRun ∉ (main_tail false false false).1 ∧
    PipelineEvent.sendBroadcast ∈ (main_tail false false false).1 ∧
    (main_tail false false true).1 =
      [.saveDigest, .sendBroadcast, .readShownHeadlines, .recordShownHeadlines,
       .recordRun, .cleanupShownHeadlines] := by
  decide

/-! ## Source health: claim C9 -/

theorem takeWhile_take_length {α : Type} (p : α → Bool) (l : List α) (n : Nat) :
    ((l.take n).takeWhile p).length = min (l.takeWhile p).length n := by
  induction l generalizing n with
  | nil => simp
  | cons x xs ih =>
    cases n with
    | zero => simp
    | succ m =>
      by_cases hp : p x
      · simp only [List.take_succ_cons, List.takeWhile_cons, hp, if_true,
          List.length_cons, ih]
        omega
      · simp [List.takeWhile_cons, hp]

theorem mem_insertByCountDesc (x a : String × Nat) (l : List (String × Nat)) :
    a ∈ insertByCountDesc x l ↔ a = x ∨ a ∈ l := by
  induction l with
  | nil => simp [insertByCountDesc]
  | cons y ys ih =>
    by_cases h : y.2 < x.2
    · simp [insertByCountDesc, h]
    · simp only [insertByCountDesc, h, if_false, List.mem_cons, ih]
      tauto

theorem mem_sortByCountDesc (a : String × Nat) (l : List (String × Nat)) :
    a ∈ sortByCountDesc l ↔ a ∈ l := by
  induction l with
  | nil => simp [sortByCountDesc]
  | cons x xs ih =>
    simp [sortByCountDesc, mem_insertByCountDesc, ih]

/-- C9 counterexample: a source with a 3-failure streak recorded entirely more
than 7 days ago has a capped count at the threshold yet is not classified
failing — the claimed "exactly when" equivalence for `get_failing_sources`
fails. -/
theorem C9_counterexample :
    get_consecutive_failures
        [⟨"s", false, 0⟩, ⟨"s", false, 0⟩, ⟨"s", false, 0⟩] "s" 10 = 3 ∧
    3 ≤ 3 ∧
    get_failing_sources
        [⟨"s", false, 0⟩, ⟨"s", false, 0⟩, ⟨"s", false, 0⟩] 1000000 3 = [] ∧
    ("s", 3) ∉ get_failing_sources
        [⟨"s", false, 0⟩, ⟨"s", false, 0⟩, ⟨"s", false, 0⟩] 1000000 3 := by
  decide

/-- C9 (amended): `get_consecutive_failures` returns the length of the leading
failure run of the source's most-recent-first history capped at the query
limit (so a streak longer than 10 reports as 10 and the count never exceeds
10), and `get_failing_sources` classifies a source as failing exactly when it
has at least one health record within the last 7 days AND its capped count
reaches the threshold. -/
theorem C9_failure_streaks :
    (∀ (db : List HealthRecord) (sid : String) (limit : Nat),
        get_consecutive_failures db sid limit =
          min ((db.filter (fun r => r.source_id = sid)).takeWhile
                (fun r => !r.success)).length limit) ∧
    (∀ (db : List HealthRecord) (sid : String),
        get_consecutive_failures db sid 10 ≤ 10) ∧
    (∀ (db : List HealthRecord) (now : Int) (k : Nat) (sid : String) (c : Nat),
        (sid, c) ∈ get_failing_sources db now k ↔
          (∃ r ∈ db, r.source_id = sid ∧ now - sevenDays < r.recorded_at) ∧
          c = get_consecutive_failures db sid 10 ∧
          k ≤ c) := by
  refine ⟨?_, ?_, ?_⟩
  · intro db sid limit
    exact takeWhile_take_length _ _ _
  · intro db sid
    unfold get_consecutive_failures
    rw [takeWhile_take_length]
    exact Nat.min_le_right _ _
  · intro db now k sid c
    unfold get_failing_sources
    rw [mem_sortByCountDesc, List.mem_filterMap]
    constructor
    · rintro ⟨s, hs, hg⟩
      by_cases hk : k ≤ get_consecutive_failures db s 10
      · rw [if_pos hk] at hg
        injection hg with hg
        injection hg with h1 h2
        subst h1
        subst h2
        rw [List.mem_dedup, List.mem_map] at hs
        obtain ⟨r, hr, hrs⟩ := hs
        rw [List.mem_filter] at hr
        exact ⟨⟨r, hr.1, hrs, by simpa using hr.2⟩, rfl, hk⟩
      · rw [if_neg hk] at hg
        cases hg
    · rintro ⟨⟨r, hrdb, hrs, hrt⟩, hc, hk⟩
      subst hc
      refine ⟨sid, ?_, ?_⟩
      · rw [List.mem_dedup, List.mem_map]
        exact ⟨r, List.mem_filter.mpr ⟨hrdb, by simpa using hrt⟩, hrs⟩
      · rw [if_pos hk]

/-! ## Renderer escaping: claim C1 -/

theorem count_lt_escapeChar (c : Char) : (escapeChar c).count '<' = 0 := by
  unfold escapeChar
  split_ifs with h1 h2 h3 h4 h5
  · decide
  · decide
  · decide
  · decide
  · decide
  · simp [List.count_cons, h2]

theorem count_lt_html_escape (s : List Char) : (html_escape s).count '<' = 0 := by
  induction s with
  | nil => rfl
  | cons c cs ih => simp [html_escape, List.count_append, count_lt_escapeChar, ih]

theorem render_source_frag_some (src : JValue) (frag : List Char)
    (h : render_source_frag src = some frag) :
    frag.count '<' = 2 ∧ source_linked src = true := by
  unfold render_source_frag at h
  split_ifs at h with hc
  injection h with h
  subst h
  constructor
  · simp only [List.count_append, count_lt_html_escape]
    decide
  · unfold source_linked
    exact decide_eq_true hc

theorem render_source_frag_none (src : JValue)
    (h : render_source_frag src = none) : source_linked src = false := by
  unfold render_source_frag at h
  split_ifs at h with hc
  unfold source_linked
  exact decide_eq_false hc

theorem count_lt_render_rv (rv : JValue) : (render_rv rv).count '<' = 4 := by
  unfold render_rv
  simp only [List.count_append, count_lt_html_escape]
  decide

theorem count_lt_render_signal (item : JValue) :
    (render_signal item).count '<' = signalTagBudget item := by
  unfold render_signal signalTagBudget
  split_ifs with hc
  · simp only [List.count_append, count_lt_html_escape]
    decide
  · simp only [List.count_append, count_lt_html_escape]
    decide

theorem count_lt_joinSep (sep : List Char) (l : List (List Char))
    (hsep : sep.count '<' = 0) :
    (joinSep sep l).count '<' = (l.map (fun x => x.count '<')).sum := by
  induction l with
  | nil => rfl
  | cons x xs ih =>
    cases xs with
    | nil => simp [joinSep]
    | cons y rest => simp [joinSep, List.count_append, hsep, ih]

theorem sum_map_const_of {α : Type} (l : List α) (f : α → Nat) (k : Nat)
    (h : ∀ x ∈ l, f x = k) : (l.map f).sum = k * l.length := by
  induction l with
  | nil => simp
  | cons x xs ih =>
    have hx := h x (List.mem_cons_self x xs)
    have hxs := ih (fun y hy => h y (List.mem_cons_of_mem x hy))
    simp [hx, hxs]
    ring

theorem count_lt_sources_line (srcs : List JValue) :
    (joinSep " · ".data (srcs.filterMap render_source_frag)).count '<' =
      2 * srcs.countP source_linked := by
  rw [count_lt_joinSep _ _ (by decide)]
  induction srcs with
  | nil => rfl
  | cons s rest ih =>
    cases h : render_source_frag s with
    | none =>
      simp [List.filterMap_cons, h, List.countP_cons, render_source_frag_none s h, ih]
    | some frag =>
      obtain ⟨hcount, hlinked⟩ := render_source_frag_some s frag h
      simp [List.filterMap_cons, h, List.countP_cons, hlinked, hcount, ih]
      ring

theorem count_lt_render_article (article : JValue) (incl : Bool) :
    (render_article article incl).count '<' = articleTagBudget article incl := by
  unfold render_article articleTagBudget
  rw [count_lt_joinSep _ _ (by decide), List.map_append, List.map_append,
      List.sum_append, List.sum_append]
  have hhead : ((article_parts_head article).map (fun x => x.count '<')).sum = 9 := by
    unfold article_parts_head
    simp only [List.map_cons, List.map_nil, List.sum_cons, List.sum_nil,
      List.count_append, count_lt_html_escape]
    decide
  have htail : ((article_parts_tail article).map (fun x => x.count '<')).sum =
      3 + 2 * (getArrJ article "sources").countP source_linked := by
    unfold article_parts_tail
    rw [List.map_cons, List.map_cons, List.map_nil, List.sum_cons, List.sum_cons,
        List.sum_nil, List.count_append, List.count_append, count_lt_sources_line]
    have e1 : ("      <p class=\"sources\">".data).count '<' = 1 := by decide
    have e2 : ("</p>".data).count '<' = 1 := by decide
    have e3 : ("    </article>".data).count '<' = 1 := by decide
    rw [e1, e2, e3]
    omega
  have hrv : ((article_parts_rv article incl).map (fun x => x.count '<')).sum =
      (if incl ∧ (getArrJ article "reporting_varies").isEmpty = false then
        6 + 4 * (getArrJ article "reporting_varies").length else 0) := by
    unfold article_parts_rv
    split_ifs with hc
    · rw [List.map_append, List.map_append, List.sum_append, List.sum_append,
          List.map_map]
      rw [sum_map_const_of (getArrJ article "reporting_varies")
            ((fun x => List.count '<' x) ∘ render_rv) 4 (fun x _ => count_lt_render_rv x)]
      have h1 : ((["      <div class=\"reporting-varies\">".data,
          "        <strong>How reporting varies:</strong>".data,
          "        <ul>".data]).map (fun x => x.count '<')).sum = 4 := by decide
      have h2 : ((["        </ul>".data, "      </div>".data]).map
          (fun x => x.count '<')).sum = 2 := by decide
      rw [h1, h2]
      omega
    · rfl
  rw [hhead, htail, hrv]
  omega

/-- C1 counterexample: the claim fails for the regional narrative summary
text.  With a summary containing `<script>alert(1)</script>`, the rendered
digest contains that markup verbatim and unescaped — `render_digest` passes
summary text through `markdown_to_html`, which escapes only markdown-link
text and URLs, not the surrounding text. -/
theorem C1_counterexample :
    hasSubstr "<script>alert(1)</script>".data
      (render_digest "A\n\x7b\x7bREGIONAL_SUMMARY\x7d\x7d\nB".data
        (.obj [("regional_summary", .obj [("americas", .str "<script>alert(1)</script>")]),
               ("must_know", .arr []), ("should_know", .arr []), ("signals", .obj [])]))
      = true := by
  decide

/-- C1 (amended): rendering escapes the tier headlines, summaries,
why-it-matters texts, reporting-varies fields, source names/biases/urls and
signal headlines/source names — `html.escape` output carries no `<`, and the
number of `<` characters of every rendered article and signal equals a budget
computed from structural data alone, independent of the text contents.  The
regional narrative summary text, by contrast, is embedded after only
markdown-link conversion (see the counterexample). -/
theorem C1_rendered_fields_escaped :
    (∀ s : List Char, (html_escape s).count '<' = 0) ∧
    (∀ (article : JValue) (incl : Bool),
        (render_article article incl).count '<' = articleTagBudget article incl) ∧
    (∀ item : JValue, (render_signal item).count '<' = signalTagBudget item) :=
  ⟨count_lt_html_escape, count_lt_render_article, count_lt_render_signal⟩

end NewsDigest
